import Mathlib

/-!
# Verification of the cb-heartbeat protocol core

A shallow embedding of `src/cb_heartbeat.go`, a Couchbase-backed heartbeat
sender/checker, together with theorems settling the behavioural claims about
it.

Modelling conventions:
* Go `int` is modelled as `Int`; Go integer division truncates toward zero,
  which is `Int.tdiv`.
* The Couchbase bucket is modelled extensionally, per poll / send tick: the
  result of `bucket.Get` on a key is a function `String → GetResult`, the
  success of `bucket.Delete` a function `String → Bool`, and the outcomes of
  the two upserts in a send tick are `Option String` error values.
* Side effects (handler callbacks, deletes, log diagnostics) are reified as an
  event trace (`CheckEvent`), so that claims about which effects happen, how
  often and in which order become statements about the trace.
* Go's `close` on a channel panics when the channel is already closed (Go
  language specification); the single-use closer channels are modelled by
  their closed/open state and `closeChan` returns the panic as an
  `Except.error`.
-/

namespace CbHeartbeat

/-- `docTypeHeartbeat` constant from the source. -/
def docTypeHeartbeat : String := "heartbeat"

/-- `docTypeHeartbeatTimeout` constant from the source. -/
def docTypeHeartbeatTimeout : String := "heartbeat_timeout"

/-- The `heartbeatMeta` struct: a liveness record (kind tag + owning node). -/
structure heartbeatMeta where
  type : String
  NodeUUID : String
deriving DecidableEq, Repr

/-- `heartbeatTimeoutDocId`: key of the expiry record,
`fmt.Sprintf("%vheartbeat_timeout:%v", keyPrefix, nodeUuid)`. -/
def heartbeatTimeoutDocId (pfx nodeUuid : String) : String :=
  pfx ++ "heartbeat_timeout:" ++ nodeUuid

/-- `heartbeatDocId`: key of the liveness record,
`fmt.Sprintf("%vheartbeat:%v", keyPrefix, nodeUuid)`. -/
def heartbeatDocId (pfx nodeUuid : String) : String :=
  pfx ++ "heartbeat:" ++ nodeUuid

/-- The TTL computation inside `upsertHeartbeatTimeoutDoc`:
`expireTimeSeconds := (intervalMs / 1000); expireTimeSeconds *= 2`
with Go's truncating integer division. -/
def expireTimeSeconds (intervalMs : Int) : Int :=
  (Int.tdiv intervalMs 1000) * 2

/-- One call to `bucket.Set(docId, ttlSeconds, doc)`. -/
structure UpsertCall where
  docId : String
  ttlSeconds : Int
  docType : String
  docNodeUUID : String
deriving DecidableEq, Repr

/-- `upsertHeartbeatTimeoutDoc`: the `bucket.Set` call a send tick issues for
the expiry record. -/
def upsertHeartbeatTimeoutDoc (pfx nodeUuid : String) (intervalMs : Int) : UpsertCall :=
  { docId := heartbeatTimeoutDocId pfx nodeUuid
    ttlSeconds := expireTimeSeconds intervalMs
    docType := docTypeHeartbeatTimeout
    docNodeUUID := nodeUuid }

/-- `upsertHeartbeatDoc`: the `bucket.Set` call a send tick issues for the
liveness record (TTL argument `0` = no expiry). -/
def upsertHeartbeatDoc (pfx nodeUuid : String) : UpsertCall :=
  { docId := heartbeatDocId pfx nodeUuid
    ttlSeconds := 0
    docType := docTypeHeartbeat
    docNodeUUID := nodeUuid }

/-- The two store writes a send tick can attempt. -/
inductive WriteKind
  | liveness
  | expiry
deriving DecidableEq, Repr

/-- `sendHeartbeat(intervalMs)`, with the outcomes of the two upserts supplied
by the store model (`none` = success, `some e` = error). Returns the list of
writes that were attempted and the error the function returns. The source
returns immediately when `upsertHeartbeatDoc` fails, so the expiry write is
attempted only when the liveness write succeeded. -/
def sendHeartbeat (hbErr toErr : Option String) : List WriteKind × Option String :=
  match hbErr with
  | some e => ([WriteKind.liveness], some e)
  | none =>
    match toErr with
    | some e => ([WriteKind.liveness, WriteKind.expiry], some e)
    | none => ([WriteKind.liveness, WriteKind.expiry], none)

/-- Outcome of one iteration of the sender goroutine's ticker loop. -/
structure TickOutcome where
  attempts : List WriteKind
  logged : Option String
  terminated : Bool
deriving DecidableEq, Repr

/-- One `<-ticker.C` iteration of the `StartSendingHeartbeats` goroutine:
`sendHeartbeat`'s error is logged (`log.Printf`) and the loop continues; it
never terminates the goroutine. -/
def senderTick (hbErr toErr : Option String) : TickOutcome :=
  { attempts := (sendHeartbeat hbErr toErr).1
    logged := (sendHeartbeat hbErr toErr).2
    terminated := false }

/-- What happens when `StartSendingHeartbeats` is called: either the call
panics before returning, or it returns with an error value and the list of
store operations it performed synchronously at start time. -/
inductive StartOutcome
  | panicked (msg : String)
  | returned (err : Option String) (storeOpsAtStart : List UpsertCall)
deriving DecidableEq, Repr

/-- `StartSendingHeartbeats(intervalMs)`: first calls
`time.NewTicker(time.Duration(intervalMs) * time.Millisecond)`, which by the
Go `time` package panics on a non-positive duration ("non-positive interval
for NewTicker"); otherwise it spawns the sender goroutine, performs no store
interaction, and unconditionally ends in `return nil`. -/
def StartSendingHeartbeats (intervalMs : Int) : StartOutcome :=
  if intervalMs ≤ 0 then StartOutcome.panicked "non-positive interval for NewTicker"
  else StartOutcome.returned none []

/-- Go `close(ch)` on a single-use closer channel, by the Go language
specification: closing an open channel closes it; closing an already-closed
channel panics. The panic is modelled as `Except.error`. -/
def closeChan (closed : Bool) : Except String Bool :=
  if closed then Except.error "close of closed channel" else Except.ok true

/-- `StopSendingHeartbeats`: `close(h.heartbeatSendCloser)`, applied to the
current closed/open state of the sender's closer channel. -/
def StopSendingHeartbeats (heartbeatSendCloserClosed : Bool) : Except String Bool :=
  closeChan heartbeatSendCloserClosed

/-- `StopCheckingHeartbeats`: `close(h.heartbeatCheckCloser)`, applied to the
current closed/open state of the checker's closer channel. -/
def StopCheckingHeartbeats (heartbeatCheckCloserClosed : Bool) : Except String Bool :=
  closeChan heartbeatCheckCloserClosed

/-- One row of the view result in `viewQueryHeartbeatDocs`. -/
structure ViewRow where
  id : String
  value : String
deriving DecidableEq, Repr

/-- The arguments `viewQueryHeartbeatDocs` passes to `bucket.ViewCustom`:
design document name, view name, and the `"stale"` query option. -/
structure ViewCustomCall where
  ddoc : String
  viewName : String
  staleOption : Bool
deriving DecidableEq, Repr

/-- The actual call in the source:
`h.bucket.ViewCustom("cbgt", "heartbeats", map[string]interface{}{"stale": false}, ...)`. -/
def viewQueryCall : ViewCustomCall :=
  { ddoc := "cbgt", viewName := "heartbeats", staleOption := false }

/-- Modelled from the spec's store contract: a view query permits
eventually-consistent (non-fresh) index results exactly when its `stale`
option is not `false` — under Couchbase view semantics `stale=false` forces
the index to be updated before the query runs, while `stale=ok` (true)
permits non-fresh results. -/
def permitsNonFresh (c : ViewCustomCall) : Bool :=
  c.staleOption

/-- The row-to-record conversion in `viewQueryHeartbeatDocs`: each view row
becomes a `heartbeatMeta` with the row's value as owning node uuid. -/
def viewRowsToHeartbeats (rows : List ViewRow) : List heartbeatMeta :=
  rows.map fun row => { type := docTypeHeartbeat, NodeUUID := row.value }

/-- Result of `bucket.Get` on the expiry record, per the source's error
analysis: success, `couchbase.IsKeyNoEntError` (key not found), or any other
store error. -/
inductive GetResult
  | found
  | keyNoEnt
  | otherErr
deriving DecidableEq, Repr

/-- The observable effects of one checker poll cycle, in order. `lookup u` is
the `bucket.Get` on node `u`'s expiry record, `staleDetected u` the
`handler.StaleHeartBeatDetected(u)` callback, `deleteAttempt u` the
`bucket.Delete` of node `u`'s liveness record, `deleteFailed u` the
`log.Printf` when that delete errors, and `skipInvalid` the
`log.Printf("Skipping invalid heartbeatDoc: ...")` diagnostic. -/
inductive CheckEvent
  | lookup (nodeUuid : String)
  | staleDetected (nodeUuid : String)
  | deleteAttempt (nodeUuid : String)
  | deleteFailed (nodeUuid : String)
  | skipInvalid
deriving DecidableEq, Repr

/-- The `for _, heartbeatDoc := range heartbeatDocs` loop of
`checkStaleHeartbeats`. `self` is `h.nodeUuid`, `pfx` is `h.keyPrefix`,
`get` gives the result of `bucket.Get` per key, `del` whether `bucket.Delete`
succeeds per key. Returns the event trace and whether the cycle aborted with
an error (`return err`). -/
def checkLoop (self pfx : String) (get : String → GetResult) (del : String → Bool) :
    List heartbeatMeta → List CheckEvent × Bool
  | [] => ([], false)
  | d :: rest =>
    if d.NodeUUID == self then
      checkLoop self pfx get del rest
    else if d.NodeUUID == "" then
      let r := checkLoop self pfx get del rest
      (CheckEvent.skipInvalid :: r.1, r.2)
    else
      match get (heartbeatTimeoutDocId pfx d.NodeUUID) with
      | GetResult.found =>
        let r := checkLoop self pfx get del rest
        (CheckEvent.lookup d.NodeUUID :: r.1, r.2)
      | GetResult.otherErr =>
        ([CheckEvent.lookup d.NodeUUID], true)
      | GetResult.keyNoEnt =>
        let delEvs :=
          if del (heartbeatDocId pfx d.NodeUUID) then
            [CheckEvent.lookup d.NodeUUID, CheckEvent.staleDetected d.NodeUUID,
              CheckEvent.deleteAttempt d.NodeUUID]
          else
            [CheckEvent.lookup d.NodeUUID, CheckEvent.staleDetected d.NodeUUID,
              CheckEvent.deleteAttempt d.NodeUUID, CheckEvent.deleteFailed d.NodeUUID]
        let r := checkLoop self pfx get del rest
        (delEvs ++ r.1, r.2)

/-- `checkStaleHeartbeats`: query the view (its result, or its error, supplied
by the store model), then run the loop over the resulting records. A view
query error is returned at once, before any record is examined. -/
def checkStaleHeartbeats (self pfx : String) (viewRes : Except String (List ViewRow))
    (get : String → GetResult) (del : String → Bool) : List CheckEvent × Bool :=
  match viewRes with
  | Except.error _ => ([], true)
  | Except.ok rows => checkLoop self pfx get del (viewRowsToHeartbeats rows)

/-- A record on which the loop hits the `return err` branch: not self, not
malformed, and the expiry-record `Get` fails with a non-`KeyNoEnt` error. -/
def isHardErr (self pfx : String) (get : String → GetResult) (d : heartbeatMeta) : Bool :=
  !(d.NodeUUID == self) && !(d.NodeUUID == "") &&
    (get (heartbeatTimeoutDocId pfx d.NodeUUID) == GetResult.otherErr)

/-- A record on which the loop takes the stale path: not self, not malformed,
and the expiry-record `Get` reports `KeyNoEnt`. -/
def isStaleHit (self pfx : String) (get : String → GetResult) (d : heartbeatMeta) : Bool :=
  !(d.NodeUUID == self) && !(d.NodeUUID == "") &&
    (get (heartbeatTimeoutDocId pfx d.NodeUUID) == GetResult.keyNoEnt)

/-- The node uuids passed to `handler.StaleHeartBeatDetected`, in order. -/
def staleCallbacks : List CheckEvent → List String
  | [] => []
  | CheckEvent.staleDetected u :: evs => u :: staleCallbacks evs
  | CheckEvent.lookup _ :: evs => staleCallbacks evs
  | CheckEvent.deleteAttempt _ :: evs => staleCallbacks evs
  | CheckEvent.deleteFailed _ :: evs => staleCallbacks evs
  | CheckEvent.skipInvalid :: evs => staleCallbacks evs

/-- The node uuids whose liveness record the cycle attempts to delete, in
order. -/
def deleteAttempts : List CheckEvent → List String
  | [] => []
  | CheckEvent.deleteAttempt u :: evs => u :: deleteAttempts evs
  | CheckEvent.staleDetected _ :: evs => deleteAttempts evs
  | CheckEvent.lookup _ :: evs => deleteAttempts evs
  | CheckEvent.deleteFailed _ :: evs => deleteAttempts evs
  | CheckEvent.skipInvalid :: evs => deleteAttempts evs

/-- Concrete store model used by the witnesses: the expiry record of node
`"b"` errors on read, every other key reads as missing. -/
def witGet (key : String) : GetResult :=
  if key == "p:heartbeat_timeout:b" then GetResult.otherErr else GetResult.keyNoEnt

/-- Concrete store model used by the witnesses: every delete succeeds. -/
def witDel (key : String) : Bool :=
  true

/-! ## Helper lemmas about the checker loop -/

theorem staleCallbacks_append (a b : List CheckEvent) :
    staleCallbacks (a ++ b) = staleCallbacks a ++ staleCallbacks b := by
  induction a with
  | nil => simp [staleCallbacks]
  | cons e evs ih => cases e <;> simp [staleCallbacks, ih]

theorem deleteAttempts_append (a b : List CheckEvent) :
    deleteAttempts (a ++ b) = deleteAttempts a ++ deleteAttempts b := by
  induction a with
  | nil => simp [deleteAttempts]
  | cons e evs ih => cases e <;> simp [deleteAttempts, ih]

theorem checkLoop_no_self_events (self pfx : String) (get : String → GetResult)
    (del : String → Bool) (docs : List heartbeatMeta) :
    CheckEvent.lookup self ∉ (checkLoop self pfx get del docs).1
    ∧ CheckEvent.staleDetected self ∉ (checkLoop self pfx get del docs).1
    ∧ CheckEvent.deleteAttempt self ∉ (checkLoop self pfx get del docs).1 := by
  induction docs with
  | nil => simp [checkLoop]
  | cons d rest ih =>
    cases h1 : d.NodeUUID == self with
    | true => simpa [checkLoop, h1] using ih
    | false =>
      have hne : ¬ self = d.NodeUUID := by
        intro h
        subst h
        simp at h1
      cases h2 : d.NodeUUID == "" with
      | true => simpa [checkLoop, h1, h2, List.mem_cons] using ih
      | false =>
        cases hget : get (heartbeatTimeoutDocId pfx d.NodeUUID) with
        | found => simpa [checkLoop, h1, h2, hget, List.mem_cons, hne] using ih
        | otherErr => simp [checkLoop, h1, h2, hget, hne]
        | keyNoEnt =>
          cases hdel : del (heartbeatDocId pfx d.NodeUUID) with
          | true =>
            simpa [checkLoop, h1, h2, hget, hdel, List.mem_cons, List.mem_append, hne] using ih
          | false =>
            simpa [checkLoop, h1, h2, hget, hdel, List.mem_cons, List.mem_append, hne] using ih

theorem staleCallbacks_checkLoop (self pfx : String) (get : String → GetResult)
    (del : String → Bool) (docs : List heartbeatMeta) :
    staleCallbacks (checkLoop self pfx get del docs).1
      = ((docs.takeWhile fun d => !isHardErr self pfx get d).filter
          (isStaleHit self pfx get)).map heartbeatMeta.NodeUUID := by
  induction docs with
  | nil => simp [checkLoop, staleCallbacks]
  | cons d rest ih =>
    cases h1 : d.NodeUUID == self with
    | true =>
      have hH : isHardErr self pfx get d = false := by simp [isHardErr, h1]
      have hS : isStaleHit self pfx get d = false := by simp [isStaleHit, h1]
      simp [checkLoop, h1, List.takeWhile_cons, List.filter_cons, hH, hS, ih]
    | false =>
      cases h2 : d.NodeUUID == "" with
      | true =>
        have hH : isHardErr self pfx get d = false := by simp [isHardErr, h2]
        have hS : isStaleHit self pfx get d = false := by simp [isStaleHit, h2]
        simp [checkLoop, staleCallbacks, h1, h2, List.takeWhile_cons, List.filter_cons,
          hH, hS, ih]
      | false =>
        cases hget : get (heartbeatTimeoutDocId pfx d.NodeUUID) with
        | found =>
          have hH : isHardErr self pfx get d = false := by simp [isHardErr, h1, h2, hget]
          have hS : isStaleHit self pfx get d = false := by simp [isStaleHit, h1, h2, hget]
          simp [checkLoop, staleCallbacks, h1, h2, hget, List.takeWhile_cons,
            List.filter_cons, hH, hS, ih]
        | otherErr =>
          have hH : isHardErr self pfx get d = true := by simp [isHardErr, h1, h2, hget]
          simp [checkLoop, staleCallbacks, h1, h2, hget, List.takeWhile_cons, hH]
        | keyNoEnt =>
          have hH : isHardErr self pfx get d = false := by simp [isHardErr, h1, h2, hget]
          have hS : isStaleHit self pfx get d = true := by simp [isStaleHit, h1, h2, hget]
          cases hdel : del (heartbeatDocId pfx d.NodeUUID) with
          | true =>
            simp [checkLoop, staleCallbacks, staleCallbacks_append, h1, h2, hget, hdel,
              List.takeWhile_cons, List.filter_cons, hH, hS, ih]
          | false =>
            simp [checkLoop, staleCallbacks, staleCallbacks_append, h1, h2, hget, hdel,
              List.takeWhile_cons, List.filter_cons, hH, hS, ih]

theorem deleteAttempts_checkLoop (self pfx : String) (get : String → GetResult)
    (del : String → Bool) (docs : List heartbeatMeta) :
    deleteAttempts (checkLoop self pfx get del docs).1
      = ((docs.takeWhile fun d => !isHardErr self pfx get d).filter
          (isStaleHit self pfx get)).map heartbeatMeta.NodeUUID := by
  induction docs with
  | nil => simp [checkLoop, deleteAttempts]
  | cons d rest ih =>
    cases h1 : d.NodeUUID == self with
    | true =>
      have hH : isHardErr self pfx get d = false := by simp [isHardErr, h1]
      have hS : isStaleHit self pfx get d = false := by simp [isStaleHit, h1]
      simp [checkLoop, h1, List.takeWhile_cons, List.filter_cons, hH, hS, ih]
    | false =>
      cases h2 : d.NodeUUID == "" with
      | true =>
        have hH : isHardErr self pfx get d = false := by simp [isHardErr, h2]
        have hS : isStaleHit self pfx get d = false := by simp [isStaleHit, h2]
        simp [checkLoop, deleteAttempts, h1, h2, List.takeWhile_cons, List.filter_cons,
          hH, hS, ih]
      | false =>
        cases hget : get (heartbeatTimeoutDocId pfx d.NodeUUID) with
        | found =>
          have hH : isHardErr self pfx get d = false := by simp [isHardErr, h1, h2, hget]
          have hS : isStaleHit self pfx get d = false := by simp [isStaleHit, h1, h2, hget]
          simp [checkLoop, deleteAttempts, h1, h2, hget, List.takeWhile_cons,
            List.filter_cons, hH, hS, ih]
        | otherErr =>
          have hH : isHardErr self pfx get d = true := by simp [isHardErr, h1, h2, hget]
          simp [checkLoop, deleteAttempts, h1, h2, hget, List.takeWhile_cons, hH]
        | keyNoEnt =>
          have hH : isHardErr self pfx get d = false := by simp [isHardErr, h1, h2, hget]
          have hS : isStaleHit self pfx get d = true := by simp [isStaleHit, h1, h2, hget]
          cases hdel : del (heartbeatDocId pfx d.NodeUUID) with
          | true =>
            simp [checkLoop, deleteAttempts, deleteAttempts_append, h1, h2, hget, hdel,
              List.takeWhile_cons, List.filter_cons, hH, hS, ih]
          | false =>
            simp [checkLoop, deleteAttempts, deleteAttempts_append, h1, h2, hget, hdel,
              List.takeWhile_cons, List.filter_cons, hH, hS, ih]

theorem checkLoop_abort_iff (self pfx : String) (get : String → GetResult)
    (del : String → Bool) (docs : List heartbeatMeta) :
    (checkLoop self pfx get del docs).2 = docs.any (isHardErr self pfx get) := by
  induction docs with
  | nil => simp [checkLoop]
  | cons d rest ih =>
    cases h1 : d.NodeUUID == self with
    | true =>
      have hH : isHardErr self pfx get d = false := by simp [isHardErr, h1]
      simp [checkLoop, h1, List.any_cons, hH, ih]
    | false =>
      cases h2 : d.NodeUUID == "" with
      | true =>
        have hH : isHardErr self pfx get d = false := by simp [isHardErr, h2]
        simp [checkLoop, h1, h2, List.any_cons, hH, ih]
      | false =>
        cases hget : get (heartbeatTimeoutDocId pfx d.NodeUUID) with
        | found =>
          have hH : isHardErr self pfx get d = false := by simp [isHardErr, h1, h2, hget]
          simp [checkLoop, h1, h2, hget, List.any_cons, hH, ih]
        | otherErr =>
          have hH : isHardErr self pfx get d = true := by simp [isHardErr, h1, h2, hget]
          simp [checkLoop, h1, h2, hget, List.any_cons, hH]
        | keyNoEnt =>
          have hH : isHardErr self pfx get d = false := by simp [isHardErr, h1, h2, hget]
          cases hdel : del (heartbeatDocId pfx d.NodeUUID) with
          | true => simp [checkLoop, h1, h2, hget, hdel, List.any_cons, hH, ih]
          | false => simp [checkLoop, h1, h2, hget, hdel, List.any_cons, hH, ih]

/-! ## Claim theorems -/

/-- C1 (counterexample): the claim "if the upsert of the liveness record
returns an error, the tick nevertheless still attempts the upsert of the
expiry record" is false: when the liveness upsert fails, `sendHeartbeat`
returns at once and the expiry write is not among the attempted writes. -/
theorem expiry_write_not_attempted_on_liveness_error :
    WriteKind.expiry ∉ (sendHeartbeat (some "store write failed") none).1 := by
  decide

/-- C1 (amended): if the liveness upsert fails with error `e`, the send tick
attempts only the liveness write and returns `e` without attempting the
expiry write; the error is merely logged by the sender loop and the task is
not terminated. -/
theorem senderTick_on_liveness_error (e : String) (toErr : Option String) :
    senderTick (some e) toErr
      = { attempts := [WriteKind.liveness], logged := some e, terminated := false } :=
  rfl

/-- C2 (counterexample): for the configured interval 1500 ms the TTL passed
to the store is 2 seconds, which is not exactly twice the configured interval
expressed in seconds (that would be 3 seconds): the claim fails for intervals
that are not whole seconds. -/
theorem ttl_not_exact_double_at_1500ms :
    ¬ (((upsertHeartbeatTimeoutDoc "p:" "n1" 1500).ttlSeconds : ℚ)
        = 2 * ((1500 : ℚ) / 1000)) := by
  have h : (upsertHeartbeatTimeoutDoc "p:" "n1" 1500).ttlSeconds = 2 := by decide
  rw [h]
  norm_num

/-- C2 (amended): the TTL passed to the store on a send tick is
`2 * (intervalMs / 1000)` with truncating integer division; whenever the
configured interval is a whole number of seconds this equals exactly twice
the configured interval expressed in seconds. -/
theorem ttl_exact_double_of_whole_second_interval (pfx nodeUuid : String)
    (intervalMs : Int) (h : (1000 : Int) ∣ intervalMs) :
    (((upsertHeartbeatTimeoutDoc pfx nodeUuid intervalMs).ttlSeconds : ℚ))
      = 2 * ((intervalMs : ℚ) / 1000) := by
  obtain ⟨k, rfl⟩ := h
  have hk : Int.tdiv (1000 * k) 1000 = k := Int.mul_tdiv_cancel_left k (by norm_num)
  simp only [upsertHeartbeatTimeoutDoc, expireTimeSeconds, hk]
  push_cast
  ring

/-- C2 (witness): the amended claim at the concrete interval 3000 ms. -/
theorem ttl_exact_double_witness :
    ((1000 : Int) ∣ 3000)
    ∧ (((upsertHeartbeatTimeoutDoc "p:" "n1" 3000).ttlSeconds : ℚ))
        = 2 * ((3000 : ℚ) / 1000) :=
  ⟨by norm_num, ttl_exact_double_of_whole_second_interval "p:" "n1" 3000 (by norm_num)⟩

/-- C3: at the sub-second interval 500 ms the sender neither rejects the
interval (`StartSendingHeartbeats` returns normally with no error and no
validation or store interaction) nor rounds it: the TTL passed to the store
for the expiry record silently truncates to 0, which under the store
contract means no expiry at all. -/
theorem subsecond_interval_truncates_ttl_to_zero :
    StartSendingHeartbeats 500 = StartOutcome.returned none []
    ∧ (upsertHeartbeatTimeoutDoc "p:" "n1" 500).ttlSeconds = 0 :=
  ⟨by decide, by decide⟩

/-- C4 (counterexample): the claim that the checker's index query permits
eventually-consistent (non-fresh) results is false: the `"stale"` option the
source passes to `ViewCustom` is `false`, which does not permit non-fresh
results. -/
theorem viewQuery_does_not_permit_nonFresh :
    ¬ (permitsNonFresh viewQueryCall = true) := by
  decide

/-- C4 (amended): the checker's enumeration passes `stale = false` to the
store's view query, demanding a freshly-updated index rather than permitting
eventually-consistent results. -/
theorem viewQuery_demands_fresh_index :
    viewQueryCall.staleOption = false ∧ permitsNonFresh viewQueryCall = false :=
  ⟨rfl, rfl⟩

/-- C5: in every poll cycle, the stale callbacks fired are exactly one per
enumerated record that is not self, not malformed, and whose expiry-record
lookup reports not-found — restricted to the records examined before the
first hard store error — and the cycle attempts exactly one liveness-record
delete per such record; the equations hold for every delete-success function
`del`, so a failed delete is only reported and never affects which peers the
cycle goes on to examine, call back for, or delete. -/
theorem stale_callback_and_delete_per_notFound_record (self pfx : String)
    (get : String → GetResult) (del : String → Bool) (docs : List heartbeatMeta) :
    staleCallbacks (checkLoop self pfx get del docs).1
      = ((docs.takeWhile fun d => !isHardErr self pfx get d).filter
          (isStaleHit self pfx get)).map heartbeatMeta.NodeUUID
    ∧ deleteAttempts (checkLoop self pfx get del docs).1
      = ((docs.takeWhile fun d => !isHardErr self pfx get d).filter
          (isStaleHit self pfx get)).map heartbeatMeta.NodeUUID
    ∧ (checkLoop self pfx get del docs).2 = docs.any (isHardErr self pfx get) :=
  ⟨staleCallbacks_checkLoop self pfx get del docs,
    deleteAttempts_checkLoop self pfx get del docs,
    checkLoop_abort_iff self pfx get del docs⟩

/-- C6: if the enumeration is `pre ++ d :: post` where no record of `pre`
hits a hard store error and `d`'s expiry-record lookup fails with an error
other than not-found, the cycle performs the events of `pre`, looks up `d`,
and returns the error: the result does not mention `post` at all, so no
remaining peer is examined and no further callback or deletion happens in
that cycle. -/
theorem hard_error_aborts_cycle (self pfx : String) (get : String → GetResult)
    (del : String → Bool) (pre post : List heartbeatMeta) (d : heartbeatMeta)
    (hpre : ∀ x ∈ pre, isHardErr self pfx get x = false)
    (hd : isHardErr self pfx get d = true) :
    checkLoop self pfx get del (pre ++ d :: post)
      = ((checkLoop self pfx get del pre).1 ++ [CheckEvent.lookup d.NodeUUID], true) := by
  induction pre with
  | nil =>
    simp only [isHardErr, Bool.and_eq_true, Bool.not_eq_true', beq_iff_eq, beq_eq_false_iff_ne] at hd
    obtain ⟨⟨hs, he⟩, hget⟩ := hd
    have h1 : (d.NodeUUID == self) = false := by simpa using hs
    have h2 : (d.NodeUUID == "") = false := by simpa using he
    simp [checkLoop, h1, h2, hget]
  | cons x pre ih =>
    have hx : isHardErr self pfx get x = false := hpre x (List.mem_cons_self x pre)
    have ih' := ih fun y hy => hpre y (List.mem_cons_of_mem x hy)
    cases h1 : x.NodeUUID == self with
    | true => simpa [checkLoop, h1] using ih'
    | false =>
      cases h2 : x.NodeUUID == "" with
      | true => simp [checkLoop, h1, h2, ih']
      | false =>
        cases hget : get (heartbeatTimeoutDocId pfx x.NodeUUID) with
        | found => simp [checkLoop, h1, h2, hget, ih']
        | otherErr =>
          exfalso
          simp [isHardErr, h1, h2, hget] at hx
        | keyNoEnt =>
          cases hdel : del (heartbeatDocId pfx x.NodeUUID) with
          | true => simp [checkLoop, h1, h2, hget, hdel, ih']
          | false => simp [checkLoop, h1, h2, hget, hdel, ih']

/-- C6 (witness): the abort theorem at a concrete cycle: record "a" is stale,
record "b"'s expiry lookup hits a hard error, record "c" is never reached. -/
theorem hard_error_aborts_cycle_witness :
    ((∀ x ∈ [({ type := "heartbeat", NodeUUID := "a" } : heartbeatMeta)],
        isHardErr "me" "p:" witGet x = false)
      ∧ isHardErr "me" "p:" witGet { type := "heartbeat", NodeUUID := "b" } = true)
    ∧ checkLoop "me" "p:" witGet witDel
        ([{ type := "heartbeat", NodeUUID := "a" }]
          ++ { type := "heartbeat", NodeUUID := "b" }
            :: [{ type := "heartbeat", NodeUUID := "c" }])
      = ((checkLoop "me" "p:" witGet witDel [{ type := "heartbeat", NodeUUID := "a" }]).1
          ++ [CheckEvent.lookup "b"], true) :=
  ⟨⟨by decide, by decide⟩,
    hard_error_aborts_cycle "me" "p:" witGet witDel
      [{ type := "heartbeat", NodeUUID := "a" }]
      [{ type := "heartbeat", NodeUUID := "c" }]
      { type := "heartbeat", NodeUUID := "b" } (by decide) (by decide)⟩

/-- C7: a poll cycle never produces an expiry-record lookup, a stale
callback, or a liveness-record delete for the checker's own node identifier,
for every store state (view result, get results, delete results): records
owned by self are skipped entirely. -/
theorem checker_never_fires_for_self (self pfx : String)
    (viewRes : Except String (List ViewRow)) (get : String → GetResult)
    (del : String → Bool) :
    CheckEvent.staleDetected self ∉ (checkStaleHeartbeats self pfx viewRes get del).1
    ∧ CheckEvent.lookup self ∉ (checkStaleHeartbeats self pfx viewRes get del).1
    ∧ CheckEvent.deleteAttempt self ∉ (checkStaleHeartbeats self pfx viewRes get del).1 := by
  cases viewRes with
  | error e => simp [checkStaleHeartbeats]
  | ok rows =>
    have h := checkLoop_no_self_events self pfx get del (viewRowsToHeartbeats rows)
    exact ⟨by simpa [checkStaleHeartbeats] using h.2.1,
      by simpa [checkStaleHeartbeats] using h.1,
      by simpa [checkStaleHeartbeats] using h.2.2⟩

/-- C8: a record whose owning node identifier is empty is skipped with the
`skipInvalid` diagnostic only: the cycle's remaining trace and abort flag are
exactly those of the rest of the enumeration, so no callback is raised for
it, nothing is deleted for it, and neither the cycle nor the task ends. -/
theorem empty_uuid_record_skipped_with_diagnostic (self pfx : String)
    (get : String → GetResult) (del : String → Bool) (d : heartbeatMeta)
    (rest : List heartbeatMeta) (hempty : d.NodeUUID = "") (hself : self ≠ "") :
    checkLoop self pfx get del (d :: rest)
      = (CheckEvent.skipInvalid :: (checkLoop self pfx get del rest).1,
        (checkLoop self pfx get del rest).2) := by
  have h1 : (d.NodeUUID == self) = false := by
    rw [hempty]
    simpa using fun h => hself h.symm
  have h2 : (d.NodeUUID == "") = true := by simp [hempty]
  simp [checkLoop, h1, h2]

/-- C8 (witness): the skip theorem at a concrete malformed record. -/
theorem empty_uuid_record_skipped_witness :
    (({ type := "heartbeat", NodeUUID := "" } : heartbeatMeta).NodeUUID = ""
      ∧ ("me" : String) ≠ "")
    ∧ checkLoop "me" "p:" witGet witDel [{ type := "heartbeat", NodeUUID := "" }]
      = (CheckEvent.skipInvalid :: (checkLoop "me" "p:" witGet witDel []).1,
        (checkLoop "me" "p:" witGet witDel []).2) :=
  ⟨⟨rfl, by decide⟩,
    empty_uuid_record_skipped_with_diagnostic "me" "p:" witGet witDel
      { type := "heartbeat", NodeUUID := "" } [] rfl (by decide)⟩

/-- C9: stopping a started sender or checker a second time fails immediately
and loudly: the first `close` of the single-use closer channel succeeds, the
second panics (Go: close of closed channel), rather than being a silent
no-op. -/
theorem double_stop_fails_loudly :
    StopSendingHeartbeats false = Except.ok true
    ∧ StopSendingHeartbeats true = Except.error "close of closed channel"
    ∧ StopCheckingHeartbeats false = Except.ok true
    ∧ StopCheckingHeartbeats true = Except.error "close of closed channel" :=
  ⟨rfl, rfl, rfl, rfl⟩

/-- C10 (counterexample): the claim that `StartSendingHeartbeats` returns a
nil error for every interval argument is false: at `intervalMs = 0` the call
panics inside `time.NewTicker` and never returns at all. -/
theorem startSending_not_nil_at_zero_interval :
    StartSendingHeartbeats 0 = StartOutcome.panicked "non-positive interval for NewTicker"
    ∧ ¬ (StartSendingHeartbeats 0 = StartOutcome.returned none []) := by
  exact ⟨by decide, by decide⟩

/-- C10 (amended): for every positive interval, `StartSendingHeartbeats`
returns a nil error and performs no store operation at start time — all
send-side store effects and failures happen only inside subsequent ticks;
for a non-positive interval the call panics inside `time.NewTicker` at start
time rather than returning an error. -/
theorem startSendingHeartbeats_nil_for_positive (intervalMs : Int)
    (h : 0 < intervalMs) :
    StartSendingHeartbeats intervalMs = StartOutcome.returned none [] := by
  simp [StartSendingHeartbeats, not_le.mpr h]

/-- C10 (witness): the amended claim at the concrete interval 1000 ms. -/
theorem startSendingHeartbeats_nil_witness :
    (0 : Int) < 1000 ∧ StartSendingHeartbeats 1000 = StartOutcome.returned none [] :=
  ⟨by norm_num, startSendingHeartbeats_nil_for_positive 1000 (by norm_num)⟩

end CbHeartbeat
